import Mathlib

/-!
# akamai-cli-netlist: the command line front end (main.go)

A shallow embedding of `main.go`: the `app.Before` credential hook, the client
configuration it builds, the registered command table, the sort of that table,
and the top-level error print.  The command handlers themselves (`cmd...`) live
in other files of the package, which this development does not cover; the ones
that are needed are modelled from the written specification and marked as such.
-/

namespace NetlistCli

/-! ## The Before hook (main.go, lines 23-55) -/

/-- A Go `error` value, identified with its message. -/
abbrev Error := String

/-- The four global string flags that `app.Before` reads through `c.GlobalString`. -/
structure GlobalFlags where
  config : String
  sectionName : String
  debug : String
  ask : String
  deriving DecidableEq, Repr

/-- The type `edgegrid.Config`, with the four fields the builder calls of `app.Before` touch. -/
structure Config (Creds : Type) where
  credentials : Option Creds
  logVerbosity : String
  accountSwitchKey : String
  requestDebug : Bool
  deriving DecidableEq, Repr

/-- The call `edgegrid.NewConfig()`: a configuration with every field at its Go zero value. -/
def NewConfig (Creds : Type) : Config Creds :=
  { credentials := none, logVerbosity := "", accountSwitchKey := "", requestDebug := false }

/-- Builder call `WithCredentials`. -/
def Config.WithCredentials {Creds : Type} (cfg : Config Creds) (creds : Creds) : Config Creds :=
  { cfg with credentials := some creds }

/-- Builder call `WithLogVerbosity`. -/
def Config.WithLogVerbosity {Creds : Type} (cfg : Config Creds) (v : String) : Config Creds :=
  { cfg with logVerbosity := v }

/-- Builder call `WithAccountSwitchKey`. -/
def Config.WithAccountSwitchKey {Creds : Type} (cfg : Config Creds) (k : String) : Config Creds :=
  { cfg with accountSwitchKey := k }

/-- Builder call `WithRequestDebug`. -/
def Config.WithRequestDebug {Creds : Type} (cfg : Config Creds) (b : Bool) : Config Creds :=
  { cfg with requestDebug := b }

/-- The API client `*service.Netlistv2` returned by `service.New(config)`; it is determined by
the configuration it was built from. -/
structure Netlistv2 (Creds : Type) where
  config : Config Creds
  deriving DecidableEq, Repr

/-- The call `service.New(config)`. -/
def serviceNew {Creds : Type} (cfg : Config Creds) : Netlistv2 Creds := ⟨cfg⟩

/-- The external collaborators of `app.Before`, taken as parameters:
`common.HomeDir()`, `edgegrid.NewCredentials().FromFile(path).Section(section)` with its Go
result pair `(creds, err)`, and `edgegrid.NewCredentials().AutoLoad(section)`.
A nil `*edgegrid.Credentials` is `none`. -/
structure External (Creds : Type) where
  homeDir : String
  fromFileSection : String → String → Option Creds × Option Error
  autoLoad : String → Option Creds

/-- What `app.Before` asks of its collaborators, in the order it asks. -/
inductive Call where
  | fromFile (path : String) (sectionName : String)
  | autoLoad (sectionName : String)
  | serviceNew
  deriving DecidableEq, Repr

/-- Outcome of running `app.Before`: the returned error (`none` for nil), the value of the
package variable `apiClient` afterwards, and the collaborator calls made. -/
structure BeforeResult (Creds : Type) where
  err : Option Error
  apiClient : Option (Netlistv2 Creds)
  calls : List Call

/-- Lines 42-49: the configuration built from resolved credentials and the `debug` and `ask`
flags. -/
def buildConfig {Creds : Type} (c : GlobalFlags) (creds : Creds) : Config Creds :=
  let config := (((NewConfig Creds).WithCredentials creds).WithLogVerbosity c.debug).WithAccountSwitchKey c.ask
  if c.debug = "debug" then config.WithRequestDebug true else config

/-- Lines 38-54: the part of `app.Before` after the credential branch. -/
def afterCreds {Creds : Type} (c : GlobalFlags) (apiClient : Option (Netlistv2 Creds))
    (creds : Option Creds) (calls : List Call) : BeforeResult Creds :=
  match creds with
  | none => { err := some "Cannot load credentials", apiClient := apiClient, calls := calls }
  | some cr =>
    { err := none, apiClient := some (serviceNew (buildConfig c cr)), calls := calls ++ [Call.serviceNew] }

/-- The hook `app.Before` (lines 23-55), run with flags `c` while the package variable
`apiClient` holds `apiClient`. -/
def Before {Creds : Type} (ext : External Creds) (c : GlobalFlags)
    (apiClient : Option (Netlistv2 Creds)) : BeforeResult Creds :=
  if c.config ≠ ext.homeDir then
    match ext.fromFileSection c.config c.sectionName with
    | (_, some err) =>
      { err := some err, apiClient := apiClient, calls := [Call.fromFile c.config c.sectionName] }
    | (creds, none) => afterCreds c apiClient creds [Call.fromFile c.config c.sectionName]
  else
    afterCreds c apiClient (ext.autoLoad c.sectionName) [Call.autoLoad c.sectionName]

/-- The credential branch alone (lines 25-36): the pair `(creds, err)` that the branch leaves
behind, `err` being the error that makes the hook return at line 32. -/
def resolveCredentials {Creds : Type} (ext : External Creds) (c : GlobalFlags) :
    Option Creds × Option Error :=
  if c.config ≠ ext.homeDir then ext.fromFileSection c.config c.sectionName
  else (ext.autoLoad c.sectionName, none)

/-! ## Running the application (main.go, lines 350-357) -/

/-- Outcome of `app.Run`: the error it returns, the package variable `apiClient` afterwards,
and how many command handlers were entered. -/
structure RunResult (Creds : Type) where
  err : Option Error
  apiClient : Option (Netlistv2 Creds)
  handlersRun : Nat

/-- The call `app.Run(os.Args)` for an invocation whose arguments parse and select the handler
`action`.  The framework (urfave/cli) is an external collaborator; what is used of it is the
documented contract of the `Before` field of `cli.App`: the hook runs before any command, and
"if a non-nil error is returned, no subcommands are run" and `Run` returns that error; otherwise
the selected action runs and `Run` returns what the action returns.  A handler reaches the
remote service only through the package variable `apiClient`, which it receives here. -/
def appRun {Creds : Type} (ext : External Creds) (c : GlobalFlags)
    (action : Option (Netlistv2 Creds) → Option Error)
    (apiClient : Option (Netlistv2 Creds)) : RunResult Creds :=
  let b := Before ext c apiClient
  match b.err with
  | some e => { err := some e, apiClient := b.apiClient, handlersRun := 0 }
  | none => { err := action b.apiClient, apiClient := b.apiClient, handlersRun := 1 }

/-- Lines 354-357: what `main` itself writes to standard output once `app.Run` has returned
`err`; `fmt.Println(err)` writes the message of the error followed by a newline. -/
def mainPrint (err : Option Error) : List String :=
  match err with
  | some e => [e ++ "\n"]
  | none => []

/-! ## The command table (main.go, lines 57-345) -/

/-- The handler functions named in the `Action` fields of the table. -/
inductive Handler where
  | cmdlistNetLists
  | cmdlistNetListID
  | cmdlistNetListName
  | cmdSearchNetLists
  | cmdSyncNetListID
  | cmdsyncNetListWithFile
  | cmdAddItemsToNetlist
  | cmdRemoveItemFromNetlist
  | cmdCreateNetList
  | cmdActivateNetList
  | cmdActivateNetListStatus
  | cmdRemoveNetlist
  | cmdNotificationManagement
  deriving DecidableEq, Repr

/-- The three kinds of `cli.Flag` used in the table. -/
inductive FlagKind where
  | BoolFlag
  | StringFlag
  | StringSliceFlag
  deriving DecidableEq, Repr

/-- A flag of a command: its kind, its `Name` and its default `Value` (empty when the table
gives none).  The `Usage` help texts are left out. -/
structure Flag where
  kind : FlagKind
  name : String
  value : String
  deriving DecidableEq, Repr

/-- The type `cli.Command`, with the fields set in the table: `Name`, `Flags`, `Subcommands`
and `Action` (`none` for a nil `Action`).  The help texts `Usage` and `UsageText` are left
out. -/
inductive Command where
  | mk (name : String) (flags : List Flag) (subcommands : List Command)
      (action : Option Handler)

/-- Field `Name`. -/
def Command.name : Command → String
  | Command.mk n _ _ _ => n

/-- Field `Flags`. -/
def Command.flags : Command → List Flag
  | Command.mk _ f _ _ => f

/-- Field `Subcommands`. -/
def Command.subcommands : Command → List Command
  | Command.mk _ _ s _ => s

/-- Field `Action`. -/
def Command.action : Command → Option Handler
  | Command.mk _ _ _ a => a

/-- A `cli.BoolFlag`. -/
def boolFlag (name : String) : Flag := ⟨FlagKind.BoolFlag, name, ""⟩

/-- A `cli.StringFlag` without a default. -/
def stringFlag (name : String) : Flag := ⟨FlagKind.StringFlag, name, ""⟩

/-- A `cli.StringFlag` with a default `Value`. -/
def stringFlagV (name : String) (value : String) : Flag := ⟨FlagKind.StringFlag, name, value⟩

/-- A `cli.StringSliceFlag`. -/
def stringSliceFlag (name : String) : Flag := ⟨FlagKind.StringSliceFlag, name, ""⟩

/-- Lines 58-129: command `get`. -/
def cmdGet : Command :=
  Command.mk "get" []
    [ Command.mk "all"
        [boolFlag "extended", boolFlag "includeElements", stringFlagV "listType" "ANY"]
        [] (some Handler.cmdlistNetLists),
      Command.mk "by-id"
        [stringFlag "id", boolFlag "extended", boolFlag "includeElements"]
        [] (some Handler.cmdlistNetListID),
      Command.mk "by-name"
        [stringFlag "name", boolFlag "extended", boolFlag "includeElements",
          stringFlagV "listType" "IP"]
        [] (some Handler.cmdlistNetListName) ]
    none

/-- Lines 130-150: command `search`. -/
def cmdSearch : Command :=
  Command.mk "search"
    [boolFlag "extended", stringFlag "searchPattern", stringFlagV "listType" "ANY"]
    [] (some Handler.cmdSearchNetLists)

/-- Lines 151-196: command `sync`. -/
def cmdSync : Command :=
  Command.mk "sync" []
    [ Command.mk "aka"
        [stringFlag "id-src", stringFlag "id-dst", boolFlag "force"]
        [] (some Handler.cmdSyncNetListID),
      Command.mk "local"
        [stringFlag "from-file", stringFlag "id-dst", boolFlag "force"]
        [] (some Handler.cmdsyncNetListWithFile) ]
    none

/-- Lines 197-238: command `items`. -/
def cmdItems : Command :=
  Command.mk "items" []
    [ Command.mk "add"
        [stringFlag "id", stringFlag "items", stringFlag "from-file"]
        [] (some Handler.cmdAddItemsToNetlist),
      Command.mk "remove"
        [stringFlag "id", stringFlag "element"]
        [] (some Handler.cmdRemoveItemFromNetlist) ]
    none

/-- Lines 239-261: command `create`. -/
def cmdCreate : Command :=
  Command.mk "create"
    [stringFlagV "name" "", stringFlagV "description" "created via akamai-cli-networklist",
      stringFlagV "type" "IP"]
    [] (some Handler.cmdCreateNetList)

/-- Lines 262-312: command `activate`. -/
def cmdActivate : Command :=
  Command.mk "activate" []
    [ Command.mk "list"
        [stringFlag "id", stringFlagV "comments" "activated via akamai-cli",
          stringSliceFlag "notificationRecipients", boolFlag "fast", boolFlag "prd"]
        [] (some Handler.cmdActivateNetList),
      Command.mk "status"
        [stringFlag "id", boolFlag "prd"]
        [] (some Handler.cmdActivateNetListStatus) ]
    none

/-- Lines 313-324: command `delete`. -/
def cmdDelete : Command :=
  Command.mk "delete" [stringFlag "id"] [] (some Handler.cmdRemoveNetlist)

/-- Lines 325-344: command `notification`. -/
def cmdNotification : Command :=
  Command.mk "notification"
    [stringSliceFlag "networkListsIDs", stringSliceFlag "notificationRecipients",
      boolFlag "unsubscribe"]
    [] (some Handler.cmdNotificationManagement)

/-- The value assigned to `app.Commands` at line 57, in declaration order. -/
def appCommands : List Command :=
  [cmdGet, cmdSearch, cmdSync, cmdItems, cmdCreate, cmdActivate, cmdDelete, cmdNotification]

mutual
/-- The leaf commands below a command, each with the path of names that leads to it and its
`Action`. -/
def Command.leaves : Command → List (List String × Option Handler)
  | Command.mk n _ [] a => [([n], a)]
  | Command.mk n _ (s :: ss) _ => (leavesOf (s :: ss)).map (fun p => (n :: p.1, p.2))
/-- The leaf commands of a list of commands. -/
def leavesOf : List Command → List (List String × Option Handler)
  | [] => []
  | c :: cs => c.leaves ++ leavesOf cs
end

/-- The handler a path of command names is dispatched to: the `Action` of the leaf command
registered under exactly that path, if there is one. -/
def dispatch (cmds : List Command) (path : List String) : Option Handler :=
  match (leavesOf cmds).find? (fun p => p.1 = path) with
  | some p => p.2
  | none => none

/-! ## Sorting the table (main.go, line 348) -/

/-- The order `cli.CommandsByName` sorts by: `Less(i, j)` compares the `Name` fields as
strings.  (Later releases of the library compare letter case first; on lower-case names such
as those of the table that is the same order.) -/
def CommandsByName.Less (a b : Command) : Prop := a.name < b.name

/-- The comparison of two names is decided character by character. -/
instance CommandsByName.decidableLess (a b : Command) : Decidable (CommandsByName.Less a b) :=
  decidable_of_iff (a.name.toList < b.name.toList) String.lt_iff_toList_lt.symm

/-- One inner loop of insertion sort: `x` moves left past every element it is `Less` than.
The already sorted part is given last element first. -/
def insertLeft (x : Command) : List Command → List Command
  | [] => [x]
  | y :: ys => if CommandsByName.Less x y then y :: insertLeft x ys else x :: y :: ys

/-- The call `sort.Sort(cli.CommandsByName(cmds))`.  For at most twelve elements the Go
library sorts by insertion: each element in turn is swapped leftwards while it is `Less` than
its left neighbour. -/
def sortCommandsByName (cmds : List Command) : List Command :=
  (cmds.foldl (fun sortedRev x => insertLeft x sortedRev) []).reverse

/-! ## The listing and synchronization handlers

The handlers named in the table are defined in other files of the package.  The two pieces
of handler logic the specification states precisely are modelled from its text. -/

/-- Modelled from the spec: an element of a network list (an address, a range, a country
code), as the handlers that are not among the sources exchange it with the service. -/
abbrev Element := String

/-- Modelled from the spec: the type of a network list, "a named, typed (IP or GEO)
collection of elements"; the declaration belongs to the client library. -/
inductive NetListType where
  | IP
  | GEO
  deriving DecidableEq, Repr

/-- The values of the `listType` flag of `get all` and `search`: `[ IP | GEO | ANY ]`. -/
inductive ListTypeFilter where
  | IP
  | GEO
  | ANY
  deriving DecidableEq, Repr

/-- Modelled from the spec: a network list as held by the remote service (id, name, type,
elements); the declaration belongs to the client library. -/
structure NetworkList where
  id : String
  name : String
  type : NetListType
  elements : List Element
  deriving DecidableEq, Repr

/-- Modelled from the spec: the type filter of the handler `cmdlistNetLists`, which is not
among the sources.  The flag "filters by the network list type": `ANY` lets every list
through, `IP` and `GEO` only the lists of that type. -/
def matchesListType : ListTypeFilter → NetListType → Bool
  | ListTypeFilter.ANY, _ => true
  | ListTypeFilter.IP, NetListType.IP => true
  | ListTypeFilter.GEO, NetListType.GEO => true
  | _, _ => false

/-- Modelled from the spec: the filtering by `listType` shared by the handlers
`cmdlistNetLists` and `cmdSearchNetLists`, which are not among the sources: the lists the
filter lets through, in the order the service gives them. -/
def filterByListType (listType : ListTypeFilter) (lists : List NetworkList) :
    List NetworkList :=
  lists.filter (fun l => matchesListType listType l.type)

/-- Modelled from the spec: the handler `cmdlistNetLists` (`get all`), which is not among the
sources: of the network lists `remote` of the account it returns those the `listType` filter
lets through. -/
def cmdlistNetLists (listType : ListTypeFilter) (remote : List NetworkList) :
    List NetworkList :=
  filterByListType listType remote

/-- Modelled from the spec: the handler `cmdSearchNetLists` (`search`), which is not among
the sources: of the network lists that "match specific expression ( either name or network
element )" it returns those the `listType` filter lets through.  What matches the search
pattern is decided by the remote service and taken as the parameter `matchesPattern`. -/
def cmdSearchNetLists (matchesPattern : NetworkList → Bool) (listType : ListTypeFilter)
    (remote : List NetworkList) : List NetworkList :=
  filterByListType listType (remote.filter matchesPattern)

/-- Modelled from the spec: the additions of the synchronization routine (section 4.1),
"additions = S − D": the source elements that the destination does not hold. -/
def additions (S D : List Element) : List Element :=
  S.filter (fun x => decide (x ∉ D))

/-- Modelled from the spec: the removals of the synchronization routine (section 4.1),
"removals = D − S": the destination elements that the source does not hold. -/
def removals (S D : List Element) : List Element :=
  D.filter (fun x => decide (x ∉ S))

/-- Modelled from the spec: a write call of the synchronization handlers, which are not among
the sources, against the remote service: add an element to a list, or remove one. -/
inductive WriteCall where
  | add (listID : String) (element : Element)
  | remove (listID : String) (element : Element)
  deriving DecidableEq, Repr

/-- Modelled from the spec: the remote service as the synchronization handlers see it when
writing, a black box: given the calls already made and the next call, it accepts (`none`) or
answers with an error. -/
abbrev Remote := List WriteCall → WriteCall → Option Error

/-- Modelled from the spec: the write step of the synchronization routine.  Calls are issued
one after the other ("no parallel requests"); an error of the remote service "aborts the
operation" and what was applied before is "not rolled back".  The result is the list of
calls issued, the failing one included, and the error if there was one. -/
def issue (remote : Remote) (done : List WriteCall) :
    List WriteCall → List WriteCall × Option Error
  | [] => (done, none)
  | c :: cs =>
    match remote done c with
    | some e => (done ++ [c], some e)
    | none => issue remote (done ++ [c]) cs

/-- Modelled from the spec: what a run of the synchronization handlers leaves behind: the
computed additions and removals (the removals are reported whether or not they are
executed), the write calls issued to the remote service in order, and the error surfaced to
the user, if any. -/
structure SyncOutcome where
  additions : List Element
  removals : List Element
  calls : List WriteCall
  err : Option Error
  deriving DecidableEq, Repr

/-- Modelled from the spec: the synchronization routine of section 4.1, shared by the
handlers `cmdSyncNetListID` and `cmdsyncNetListWithFile`, which are not among the sources.
"Compute additions = S − D and removals = D − S.  Additions are always applied.  Removals
are applied only when a force flag is set; otherwise removals are reported but not
executed." -/
def syncElements (remote : Remote) (force : Bool) (idDst : String) (S D : List Element) :
    SyncOutcome :=
  let adds := additions S D
  let rems := removals S D
  let planned :=
    adds.map (WriteCall.add idDst) ++ (if force then rems.map (WriteCall.remove idDst) else [])
  let r := issue remote [] planned
  { additions := adds, removals := rems, calls := r.1, err := r.2 }

/-- Modelled from the spec: the outcome of a synchronization run that a failed fetch aborts;
the error is "surfaced to the user verbatim" and nothing is written. -/
def syncAborted (e : Error) : SyncOutcome :=
  { additions := [], removals := [], calls := [], err := some e }

/-- Modelled from the spec: the handler `cmdSyncNetListID` (`sync aka`), which is not among
the sources.  The source set is drawn "from another remote list" (`--id-src`), the
destination list (`--id-dst`) is "fetched fresh from the remote service"; an error of a fetch
aborts the operation. -/
def cmdSyncNetListID (fetch : String → Except Error (List Element)) (remote : Remote)
    (idSrc idDst : String) (force : Bool) : SyncOutcome :=
  match fetch idSrc with
  | Except.error e => syncAborted e
  | Except.ok S =>
    match fetch idDst with
    | Except.error e => syncAborted e
    | Except.ok D => syncElements remote force idDst S D

/-- Modelled from the spec: the handler `cmdsyncNetListWithFile` (`sync local`), which is not
among the sources.  The source set is drawn from "a local file, one element per line"
(`--from-file`), the destination list (`--id-dst`) is fetched from the remote service. -/
def cmdsyncNetListWithFile (readLines : String → Except Error (List Element))
    (fetch : String → Except Error (List Element)) (remote : Remote)
    (fromFile idDst : String) (force : Bool) : SyncOutcome :=
  match readLines fromFile with
  | Except.error e => syncAborted e
  | Except.ok S =>
    match fetch idDst with
    | Except.error e => syncAborted e
    | Except.ok D => syncElements remote force idDst S D

/-! ## Concrete invocations used as test inputs -/

/-- A test environment: the home path, a credentials file that loads, and auto-discovery
that finds other credentials. -/
def extSample : External String :=
  { homeDir := "/home/user/.edgerc",
    fromFileSection := fun _ _ => (some "creds-from-file", none),
    autoLoad := fun _ => some "creds-auto" }

/-- A test environment in which no credentials can be found. -/
def extEmpty : External String :=
  { homeDir := "/home/user/.edgerc",
    fromFileSection := fun _ _ => (none, some "open /etc/edgerc: no such file or directory"),
    autoLoad := fun _ => none }

/-- An invocation with `--config /etc/edgerc --debug debug --ask 1-ABCD`. -/
def flagsExplicit : GlobalFlags :=
  { config := "/etc/edgerc", sectionName := "default", debug := "debug", ask := "1-ABCD" }

/-- An invocation with `--config /home/user/.edgerc`, the path `common.HomeDir()` returns in
the test environments. -/
def flagsHome : GlobalFlags :=
  { config := "/home/user/.edgerc", sectionName := "default", debug := "", ask := "" }

/-- A handler that succeeds. -/
def actionOk : Option (Netlistv2 String) → Option Error := fun _ => none

/-- A handler to which the remote service answers with an error, which it returns. -/
def actionFail : Option (Netlistv2 String) → Option Error := fun _ => some "404 Not Found"

/-- A test remote service holding the lists `LIST_SRC`, `LIST_DST` and `LIST_COPY`. -/
def fetchSample : String → Except Error (List Element) := fun id =>
  if id = "LIST_SRC" then Except.ok ["10.0.0.1", "10.0.0.2"]
  else if id = "LIST_DST" then Except.ok ["10.0.0.2", "10.0.0.3"]
  else if id = "LIST_COPY" then Except.ok ["10.0.0.3", "10.0.0.2", "10.0.0.3"]
  else Except.error "network list not found"

/-- A test file system holding the files `items.txt` and `same.txt`. -/
def readLinesSample : String → Except Error (List Element) := fun path =>
  if path = "items.txt" then Except.ok ["10.0.0.1", "10.0.0.2"]
  else if path = "same.txt" then Except.ok ["10.0.0.3", "10.0.0.2"]
  else Except.error "no such file or directory"

/-- A remote service that rejects every write call. -/
def remoteRejecting : Remote := fun _ _ => some "403 Forbidden"

/-! ## Theorems: the Before hook -/

/-- Whatever the credential branch leaves behind decides the hook: an error of the file
load is returned as it is, and otherwise the hook continues with the loaded credentials. -/
theorem Before_eq_of_resolve {Creds : Type} (ext : External Creds) (c : GlobalFlags)
    (apiClient : Option (Netlistv2 Creds)) :
    (∀ e, (resolveCredentials ext c).2 = some e → (Before ext c apiClient).err = some e ∧
      (Before ext c apiClient).apiClient = apiClient ∧
      Call.serviceNew ∉ (Before ext c apiClient).calls) ∧
    ((resolveCredentials ext c) = (none, none) →
      (Before ext c apiClient).err = some "Cannot load credentials" ∧
      (Before ext c apiClient).apiClient = apiClient ∧
      Call.serviceNew ∉ (Before ext c apiClient).calls) ∧
    ((resolveCredentials ext c).1 = none → (Before ext c apiClient).err ≠ none ∧
      (Before ext c apiClient).apiClient = apiClient ∧
      Call.serviceNew ∉ (Before ext c apiClient).calls) := by
  unfold resolveCredentials Before
  by_cases hc : c.config ≠ ext.homeDir
  · simp only [if_pos hc]
    rcases hres : ext.fromFileSection c.config c.sectionName with ⟨cr, er⟩
    cases er with
    | some e0 => simp
    | none =>
      cases cr with
      | none => simp [afterCreds]
      | some cr0 => simp [afterCreds]
  · simp only [if_neg hc]
    cases hauto : ext.autoLoad c.sectionName with
    | none => simp [afterCreds]
    | some cr0 => simp [afterCreds]

/-- C3, as stated, fails: with `--config` given as the very path `common.HomeDir()` returns,
the hook does not read that file; it calls `AutoLoad` and builds the client from the
auto-discovered credentials. -/
theorem C3_explicit_home_path_uses_AutoLoad :
    flagsHome.config = extSample.homeDir ∧
    (Before extSample flagsHome none).calls = [Call.autoLoad "default", Call.serviceNew] ∧
    Call.fromFile flagsHome.config flagsHome.sectionName ∉ (Before extSample flagsHome none).calls ∧
    (Before extSample flagsHome none).apiClient.map (fun cl => cl.config.credentials)
      = some (some "creds-auto") := by
  decide

/-- C3, amended: whenever the value of `--config` differs from `common.HomeDir()`, the hook
loads the credentials with `FromFile(path).Section(section)`, that is its first and only
loader call, `AutoLoad` is not called, and on success the client is built from the
credentials of the file.  Whenever the value equals `common.HomeDir()`, the hook calls
`AutoLoad(section)`, that is its first and only loader call, no file is read with `FromFile`,
and on success the client is built from the auto-discovered credentials. -/
theorem C3_config_path_bypasses_AutoLoad {Creds : Type} (ext : External Creds)
    (c : GlobalFlags) (apiClient : Option (Netlistv2 Creds)) :
    (c.config ≠ ext.homeDir →
      ((Before ext c apiClient).calls = [Call.fromFile c.config c.sectionName] ∨
        (Before ext c apiClient).calls
          = [Call.fromFile c.config c.sectionName, Call.serviceNew]) ∧
      (∀ s, Call.autoLoad s ∉ (Before ext c apiClient).calls) ∧
      (∀ cr, ext.fromFileSection c.config c.sectionName = (some cr, none) →
        (Before ext c apiClient).err = none ∧
        (Before ext c apiClient).apiClient = some (serviceNew (buildConfig c cr)))) ∧
    (c.config = ext.homeDir →
      ((Before ext c apiClient).calls = [Call.autoLoad c.sectionName] ∨
        (Before ext c apiClient).calls = [Call.autoLoad c.sectionName, Call.serviceNew]) ∧
      (∀ path s, Call.fromFile path s ∉ (Before ext c apiClient).calls) ∧
      (∀ cr, ext.autoLoad c.sectionName = some cr →
        (Before ext c apiClient).err = none ∧
        (Before ext c apiClient).apiClient = some (serviceNew (buildConfig c cr))) ∧
      (ext.autoLoad c.sectionName = none →
        (Before ext c apiClient).err = some "Cannot load credentials" ∧
        (Before ext c apiClient).apiClient = apiClient)) := by
  constructor
  · intro h
    unfold Before
    simp only [if_pos h]
    rcases hres : ext.fromFileSection c.config c.sectionName with ⟨cr, er⟩
    cases er with
    | some e0 => simp
    | none =>
      cases cr with
      | none => simp [afterCreds]
      | some cr0 => simp [afterCreds]
  · intro h
    have hn : ¬ c.config ≠ ext.homeDir := fun hne => hne h
    unfold Before
    simp only [if_neg hn]
    cases hauto : ext.autoLoad c.sectionName with
    | none => simp [afterCreds]
    | some cr0 => simp [afterCreds]

/-- Witness of C3 (amended): `--config /etc/edgerc` with the home path elsewhere reads the
file and does not auto-discover; `--config` equal to the home path auto-discovers and reads
no file. -/
theorem C3_config_path_bypasses_AutoLoad_witness :
    (flagsExplicit.config ≠ extSample.homeDir ∧
      ((Before extSample flagsExplicit none).calls = [Call.fromFile "/etc/edgerc" "default"] ∨
        (Before extSample flagsExplicit none).calls
          = [Call.fromFile "/etc/edgerc" "default", Call.serviceNew]) ∧
      (∀ s, Call.autoLoad s ∉ (Before extSample flagsExplicit none).calls)) ∧
    (flagsHome.config = extEmpty.homeDir ∧
      ((Before extEmpty flagsHome none).calls = [Call.autoLoad "default"] ∨
        (Before extEmpty flagsHome none).calls = [Call.autoLoad "default", Call.serviceNew]) ∧
      (∀ path s, Call.fromFile path s ∉ (Before extEmpty flagsHome none).calls)) :=
  ⟨⟨by decide,
      ((C3_config_path_bypasses_AutoLoad extSample flagsExplicit none).1 (by decide)).1,
      ((C3_config_path_bypasses_AutoLoad extSample flagsExplicit none).1 (by decide)).2.1⟩,
    ⟨by decide,
      ((C3_config_path_bypasses_AutoLoad extEmpty flagsHome none).2 (by decide)).1,
      ((C3_config_path_bypasses_AutoLoad extEmpty flagsHome none).2 (by decide)).2.1⟩⟩

/-- C4: whenever no credentials can be resolved (the credential branch leaves an error, or
leaves nil credentials), the hook returns an error, the package variable `apiClient` keeps
the value it had (nil in `main`), `service.New` is not called, and `app.Run` returns that
error without entering a handler; when the credentials are nil without an error, the error
is "Cannot load credentials". -/
theorem C4_no_credentials_fails_fast {Creds : Type} (ext : External Creds) (c : GlobalFlags)
    (apiClient : Option (Netlistv2 Creds)) (action : Option (Netlistv2 Creds) → Option Error)
    (h : (resolveCredentials ext c).2 ≠ none ∨ (resolveCredentials ext c).1 = none) :
    (Before ext c apiClient).err ≠ none ∧
    (Before ext c apiClient).apiClient = apiClient ∧
    Call.serviceNew ∉ (Before ext c apiClient).calls ∧
    (appRun ext c action apiClient).handlersRun = 0 ∧
    (appRun ext c action apiClient).apiClient = apiClient ∧
    (appRun ext c action apiClient).err = (Before ext c apiClient).err ∧
    ((resolveCredentials ext c) = (none, none) →
      (Before ext c apiClient).err = some "Cannot load credentials") := by
  have key := Before_eq_of_resolve ext c apiClient
  have hb : (Before ext c apiClient).err ≠ none ∧
      (Before ext c apiClient).apiClient = apiClient ∧
      Call.serviceNew ∉ (Before ext c apiClient).calls := by
    rcases h with h | h
    · cases he : (resolveCredentials ext c).2 with
      | none => exact absurd he h
      | some e =>
        have := key.1 e he
        exact ⟨by simp [this.1], this.2.1, this.2.2⟩
    · exact key.2.2 h
  refine ⟨hb.1, hb.2.1, hb.2.2, ?_, ?_, ?_, fun hn => (key.2.1 hn).1⟩
  all_goals
    unfold appRun
    cases hbe : (Before ext c apiClient).err with
    | none => exact absurd hbe hb.1
    | some e => simp [hbe, hb.2.1]

/-- Witness of C4: an invocation in an environment without any credentials. -/
theorem C4_no_credentials_fails_fast_witness :
    (Before extEmpty flagsHome none).err = some "Cannot load credentials" ∧
    (Before extEmpty flagsHome none).apiClient = none ∧
    (appRun extEmpty flagsHome actionOk none).handlersRun = 0 :=
  have h := C4_no_credentials_fails_fast extEmpty flagsHome none actionOk (Or.inr (by decide))
  ⟨h.2.2.2.2.2.2 (by decide), h.2.1, h.2.2.2.1⟩

/-- C5: every failure is returned up to the top level and printed.  An error of loading the
credentials file comes back from the hook unchanged, and nil credentials come back as the
error "Cannot load credentials"; whatever error the hook returns, `app.Run` returns it and
no handler runs; when the hook succeeds the selected handler runs with the client the hook
stored and `app.Run` returns exactly what the handler returns, so an error of the remote
service that the handler returns is returned by `app.Run`; and for every error `app.Run`
returns, `main` prints exactly that error and a newline, while it prints nothing when
`app.Run` returns no error. -/
theorem C5_errors_returned_and_printed {Creds : Type} (ext : External Creds) (c : GlobalFlags)
    (apiClient : Option (Netlistv2 Creds))
    (action : Option (Netlistv2 Creds) → Option Error) :
    (∀ e, c.config ≠ ext.homeDir →
      (ext.fromFileSection c.config c.sectionName).2 = some e →
      (Before ext c apiClient).err = some e ∧
      (appRun ext c action apiClient).err = some e ∧
      mainPrint (appRun ext c action apiClient).err = [e ++ "\n"]) ∧
    (resolveCredentials ext c = (none, none) →
      (Before ext c apiClient).err = some "Cannot load credentials" ∧
      (appRun ext c action apiClient).err = some "Cannot load credentials" ∧
      mainPrint (appRun ext c action apiClient).err = ["Cannot load credentials" ++ "\n"]) ∧
    (∀ e, (Before ext c apiClient).err = some e →
      (appRun ext c action apiClient).err = some e ∧
      (appRun ext c action apiClient).handlersRun = 0 ∧
      mainPrint (appRun ext c action apiClient).err = [e ++ "\n"]) ∧
    ((Before ext c apiClient).err = none →
      (appRun ext c action apiClient).err = action (Before ext c apiClient).apiClient ∧
      (appRun ext c action apiClient).handlersRun = 1) ∧
    (∀ e, (Before ext c apiClient).err = none →
      action (Before ext c apiClient).apiClient = some e →
      (appRun ext c action apiClient).err = some e ∧
      mainPrint (appRun ext c action apiClient).err = [e ++ "\n"]) ∧
    ((Before ext c apiClient).err = none →
      action (Before ext c apiClient).apiClient = none →
      (appRun ext c action apiClient).err = none ∧
      mainPrint (appRun ext c action apiClient).err = []) ∧
    (∀ e0 : Error, mainPrint (some e0) = [e0 ++ "\n"]) ∧
    mainPrint none = [] := by
  have hfail : ∀ e, (Before ext c apiClient).err = some e →
      (appRun ext c action apiClient).err = some e ∧
      (appRun ext c action apiClient).handlersRun = 0 ∧
      mainPrint (appRun ext c action apiClient).err = [e ++ "\n"] := by
    intro e hb
    have hr : appRun ext c action apiClient
        = { err := some e, apiClient := (Before ext c apiClient).apiClient,
            handlersRun := 0 } := by
      unfold appRun
      simp only [hb]
    rw [hr]
    exact ⟨rfl, rfl, rfl⟩
  have hok : (Before ext c apiClient).err = none →
      appRun ext c action apiClient
        = { err := action (Before ext c apiClient).apiClient,
            apiClient := (Before ext c apiClient).apiClient, handlersRun := 1 } := by
    intro hb
    unfold appRun
    simp only [hb]
  have key := Before_eq_of_resolve ext c apiClient
  refine ⟨?_, ?_, hfail, ?_, ?_, ?_, fun _ => rfl, rfl⟩
  · intro e hc he
    have hb : (Before ext c apiClient).err = some e := by
      refine (key.1 e ?_).1
      unfold resolveCredentials
      simp only [if_pos hc]
      exact he
    exact ⟨hb, (hfail e hb).1, (hfail e hb).2.2⟩
  · intro hn
    have hb := (key.2.1 hn).1
    exact ⟨hb, (hfail _ hb).1, (hfail _ hb).2.2⟩
  · intro hb
    rw [hok hb]
    exact ⟨rfl, rfl⟩
  · intro e hb ha
    rw [hok hb]
    refine ⟨ha, ?_⟩
    show mainPrint (action (Before ext c apiClient).apiClient) = [e ++ "\n"]
    rw [ha]
    rfl
  · intro hb ha
    rw [hok hb]
    refine ⟨ha, ?_⟩
    show mainPrint (action (Before ext c apiClient).apiClient) = []
    rw [ha]
    rfl

/-- Witness of C5: a credentials file that cannot be opened, an environment without any
credentials, and a handler that returns an error of the remote service; each error is what
`main` prints. -/
theorem C5_errors_returned_and_printed_witness :
    mainPrint (appRun extEmpty flagsExplicit actionOk none).err
      = ["open /etc/edgerc: no such file or directory\n"] ∧
    mainPrint (appRun extEmpty flagsHome actionOk none).err = ["Cannot load credentials\n"] ∧
    mainPrint (appRun extSample flagsExplicit actionFail none).err = ["404 Not Found\n"] ∧
    mainPrint (appRun extSample flagsExplicit actionOk none).err = [] :=
  ⟨((C5_errors_returned_and_printed extEmpty flagsExplicit none actionOk).1
      "open /etc/edgerc: no such file or directory" (by decide) rfl).2.2,
    ((C5_errors_returned_and_printed extEmpty flagsHome none actionOk).2.1 (by decide)).2.2,
    ((C5_errors_returned_and_printed extSample flagsExplicit none actionFail).2.2.2.2.1
      "404 Not Found" (by decide) rfl).2,
    ((C5_errors_returned_and_printed extSample flagsExplicit none actionOk).2.2.2.2.2.1
      (by decide) rfl).2⟩

/-- C10: for every value of the `debug` and `ask` flags, the configuration built by the hook
carries the `debug` value as its log verbosity and the `ask` value as its account switch key,
and has request debugging enabled exactly when `debug` is the string "debug"; and whenever
the hook succeeds, the client it stores is built from such a configuration. -/
theorem C10_config_carries_flags {Creds : Type} (ext : External Creds) (c : GlobalFlags)
    (apiClient : Option (Netlistv2 Creds)) (h : (Before ext c apiClient).err = none) :
    (∀ cr : Creds, (buildConfig c cr).logVerbosity = c.debug ∧
      (buildConfig c cr).accountSwitchKey = c.ask ∧
      (buildConfig c cr).credentials = some cr ∧
      ((buildConfig c cr).requestDebug = true ↔ c.debug = "debug")) ∧
    (∃ cl, (Before ext c apiClient).apiClient = some cl ∧
      cl.config.logVerbosity = c.debug ∧ cl.config.accountSwitchKey = c.ask ∧
      (cl.config.requestDebug = true ↔ c.debug = "debug")) := by
  have hcfg : ∀ cr : Creds, (buildConfig c cr).logVerbosity = c.debug ∧
      (buildConfig c cr).accountSwitchKey = c.ask ∧
      (buildConfig c cr).credentials = some cr ∧
      ((buildConfig c cr).requestDebug = true ↔ c.debug = "debug") := by
    intro cr
    unfold buildConfig
    by_cases hd : c.debug = "debug"
    · simp [hd, NewConfig, Config.WithCredentials, Config.WithLogVerbosity,
        Config.WithAccountSwitchKey, Config.WithRequestDebug]
    · simp [hd, NewConfig, Config.WithCredentials, Config.WithLogVerbosity,
        Config.WithAccountSwitchKey]
  refine ⟨hcfg, ?_⟩
  have hex : ∃ cr, (Before ext c apiClient).apiClient = some (serviceNew (buildConfig c cr)) := by
    revert h
    unfold Before
    by_cases hc : c.config ≠ ext.homeDir
    · simp only [if_pos hc]
      rcases hres : ext.fromFileSection c.config c.sectionName with ⟨cr, er⟩
      cases er with
      | some e0 => simp
      | none =>
        cases cr with
        | none => simp [afterCreds]
        | some cr0 =>
          simp only [afterCreds]
          exact fun _ => ⟨cr0, rfl⟩
    · simp only [if_neg hc]
      cases hauto : ext.autoLoad c.sectionName with
      | none => simp [afterCreds]
      | some cr0 =>
        simp only [afterCreds]
        exact fun _ => ⟨cr0, rfl⟩
  obtain ⟨cr, hcl⟩ := hex
  exact ⟨serviceNew (buildConfig c cr), hcl, (hcfg cr).1, (hcfg cr).2.1, (hcfg cr).2.2.2⟩

/-- Witness of C10: `--debug debug --ask 1-ABCD` with credentials that load. -/
theorem C10_config_carries_flags_witness :
    (Before extSample flagsExplicit none).err = none ∧
    ∃ cl, (Before extSample flagsExplicit none).apiClient = some cl ∧
      cl.config.logVerbosity = "debug" ∧ cl.config.accountSwitchKey = "1-ABCD" ∧
      (cl.config.requestDebug = true ↔ flagsExplicit.debug = "debug") :=
  ⟨by decide, (C10_config_carries_flags extSample flagsExplicit none (by decide)).2⟩

/-! ## Theorems: the command table and its sort -/

/-- C8: the table registers exactly the top-level commands get, search, sync, items, create,
activate, delete, notification, with the subcommands get {all, by-id, by-name},
sync {aka, local}, items {add, remove}, activate {list, status} and none for the others (and
none below a subcommand); names are pairwise distinct at each level, the thirteen leaf paths
are pairwise distinct, every leaf has a handler, and dispatching a leaf path yields the
handler registered there. -/
theorem C8_command_table :
    appCommands.map Command.name
      = ["get", "search", "sync", "items", "create", "activate", "delete", "notification"] ∧
    appCommands.map (fun c => c.subcommands.map Command.name)
      = [["all", "by-id", "by-name"], [], ["aka", "local"], ["add", "remove"], [],
          ["list", "status"], [], []] ∧
    (appCommands.all fun c => c.subcommands.all fun s => s.subcommands.isEmpty) = true ∧
    (appCommands.map Command.name).Nodup ∧
    (appCommands.all fun c => decide (c.subcommands.map Command.name).Nodup) = true ∧
    leavesOf appCommands
      = [ (["get", "all"], some Handler.cmdlistNetLists),
          (["get", "by-id"], some Handler.cmdlistNetListID),
          (["get", "by-name"], some Handler.cmdlistNetListName),
          (["search"], some Handler.cmdSearchNetLists),
          (["sync", "aka"], some Handler.cmdSyncNetListID),
          (["sync", "local"], some Handler.cmdsyncNetListWithFile),
          (["items", "add"], some Handler.cmdAddItemsToNetlist),
          (["items", "remove"], some Handler.cmdRemoveItemFromNetlist),
          (["create"], some Handler.cmdCreateNetList),
          (["activate", "list"], some Handler.cmdActivateNetList),
          (["activate", "status"], some Handler.cmdActivateNetListStatus),
          (["delete"], some Handler.cmdRemoveNetlist),
          (["notification"], some Handler.cmdNotificationManagement) ] ∧
    ((leavesOf appCommands).map Prod.fst).Nodup ∧
    ((leavesOf appCommands).all fun p => p.2.isSome) = true ∧
    (leavesOf appCommands).map (fun p => dispatch appCommands p.1)
      = (leavesOf appCommands).map Prod.snd := by
  refine ⟨by decide, by decide, by decide, by decide, by decide, by decide, by decide,
    by decide, by decide⟩

/-- Inserting an element into the sorted part keeps exactly the elements. -/
theorem insertLeft_perm (x : Command) (l : List Command) : (insertLeft x l).Perm (x :: l) := by
  induction l with
  | nil => exact List.Perm.refl _
  | cons y ys ih =>
    unfold insertLeft
    split
    · exact ((List.Perm.cons y ih).trans (List.Perm.swap x y ys))
    · exact List.Perm.refl _

/-- The insertion loop keeps exactly the elements. -/
theorem foldl_insertLeft_perm (l acc : List Command) :
    (l.foldl (fun sortedRev x => insertLeft x sortedRev) acc).Perm (l ++ acc) := by
  induction l generalizing acc with
  | nil => exact List.Perm.refl _
  | cons x xs ih =>
    rw [List.foldl_cons]
    refine (ih (insertLeft x acc)).trans ?_
    refine (List.Perm.append_left xs (insertLeft_perm x acc)).trans ?_
    exact List.perm_middle

/-- The sort returns a permutation of its input, for every input. -/
theorem sortCommandsByName_perm (cmds : List Command) :
    (sortCommandsByName cmds).Perm cmds := by
  unfold sortCommandsByName
  refine (List.reverse_perm _).trans ?_
  simpa using foldl_insertLeft_perm cmds []

/-- Inserting an element keeps the sorted part sorted (last element first: no element is
`Less` than a later one). -/
theorem insertLeft_sorted (x : Command) (l : List Command)
    (h : l.Pairwise (fun a b => ¬ CommandsByName.Less a b)) :
    (insertLeft x l).Pairwise (fun a b => ¬ CommandsByName.Less a b) := by
  induction l with
  | nil => simp [insertLeft]
  | cons y ys ih =>
    rw [List.pairwise_cons] at h
    unfold insertLeft
    split
    next hlt =>
      rw [List.pairwise_cons]
      refine ⟨?_, ih h.2⟩
      intro z hz
      rcases (insertLeft_perm x ys).subset hz with hz | hz
      · exact fun hyx => absurd hlt (lt_asymm hyx)
      · rename_i hz2
        exact h.1 z (by simpa using hz2)
    next hnlt =>
      rw [List.pairwise_cons, List.pairwise_cons]
      refine ⟨?_, h⟩
      intro z hz
      rcases List.mem_cons.mp hz with hz | hz
      · subst hz
        exact hnlt
      · intro hxz
        have h1 : ¬ y.name < z.name := h.1 z hz
        have h2 : ¬ x.name < y.name := hnlt
        exact absurd (lt_of_lt_of_le hxz (not_lt.mp h1)) h2

/-- The insertion loop keeps the sorted part sorted. -/
theorem foldl_insertLeft_sorted (l acc : List Command)
    (h : acc.Pairwise (fun a b => ¬ CommandsByName.Less a b)) :
    (l.foldl (fun sortedRev x => insertLeft x sortedRev) acc).Pairwise
      (fun a b => ¬ CommandsByName.Less a b) := by
  induction l generalizing acc with
  | nil => exact h
  | cons x xs ih => exact ih _ (insertLeft_sorted x acc h)

/-- The sort returns a list in ascending name order, for every input: no element is `Less`
than an earlier one. -/
theorem sortCommandsByName_sorted (cmds : List Command) :
    (sortCommandsByName cmds).Pairwise (fun a b => ¬ CommandsByName.Less b a) := by
  unfold sortCommandsByName
  rw [List.pairwise_reverse]
  exact foldl_insertLeft_sorted cmds [] List.Pairwise.nil

/-- Any permutation of the table that is in ascending name order is the list the sort
returns: the result of line 348 does not depend on the sorting algorithm of the library. -/
theorem sorted_table_unique (out : List Command) (hp : out.Perm appCommands)
    (hs : out.Pairwise (fun a b => ¬ CommandsByName.Less b a)) :
    out = sortCommandsByName appCommands := by
  have strict : ∀ l : List Command, l.Perm appCommands →
      l.Pairwise (fun a b => ¬ CommandsByName.Less b a) → l.Pairwise CommandsByName.Less := by
    intro l hl hsl
    have hnd : (l.map Command.name).Nodup :=
      (hl.map Command.name).nodup_iff.mpr (by decide)
    have hne : l.Pairwise (fun a b => a.name ≠ b.name) := by
      rw [List.Nodup, List.pairwise_map] at hnd
      exact hnd
    exact (hsl.and hne).imp (fun hab => lt_of_le_of_ne (not_lt.mp hab.1) hab.2)
  haveI : IsAntisymm Command CommandsByName.Less :=
    ⟨fun a b h1 h2 => absurd h2 (lt_asymm h1)⟩
  exact List.eq_of_perm_of_sorted (hp.trans (sortCommandsByName_perm appCommands).symm)
    (strict out hp hs)
    (strict _ (sortCommandsByName_perm appCommands) (sortCommandsByName_sorted appCommands))

/-- C9: after line 348 the top-level command list is a permutation of the registered
commands, in ascending name order (activate, create, delete, get, items, notification,
search, sync), and every command is the registered one, its subcommands in their declared
order (get: all, by-id, by-name). -/
theorem C9_commands_sorted_by_name :
    (sortCommandsByName appCommands).Perm appCommands ∧
    (sortCommandsByName appCommands).map Command.name
      = ["activate", "create", "delete", "get", "items", "notification", "search", "sync"] ∧
    (sortCommandsByName appCommands).Pairwise CommandsByName.Less ∧
    sortCommandsByName appCommands
      = [cmdActivate, cmdCreate, cmdDelete, cmdGet, cmdItems, cmdNotification, cmdSearch,
          cmdSync] ∧
    (sortCommandsByName appCommands).map (fun c => c.subcommands.map Command.name)
      = [["list", "status"], [], [], ["all", "by-id", "by-name"], ["add", "remove"], [],
          [], ["aka", "local"]] := by
  refine ⟨sortCommandsByName_perm appCommands, by decide, ?_, by rfl, by decide⟩
  have h : sortCommandsByName appCommands
      = [cmdActivate, cmdCreate, cmdDelete, cmdGet, cmdItems, cmdNotification, cmdSearch,
          cmdSync] := by rfl
  rw [h]
  decide

/-! ## Theorems: listing by type -/

/-- Filtering by `ANY` keeps every list, which is the union of what `IP` and `GEO` keep;
filtering by `IP` (by `GEO`) keeps exactly the lists of that type. -/
theorem filterByListType_spec (lists : List NetworkList) :
    filterByListType ListTypeFilter.ANY lists = lists ∧
    (filterByListType ListTypeFilter.ANY lists).toFinset
      = (filterByListType ListTypeFilter.IP lists).toFinset
        ∪ (filterByListType ListTypeFilter.GEO lists).toFinset ∧
    (filterByListType ListTypeFilter.IP lists ++ filterByListType ListTypeFilter.GEO lists).Perm
      (filterByListType ListTypeFilter.ANY lists) ∧
    filterByListType ListTypeFilter.IP lists
      = lists.filter (fun l => decide (l.type = NetListType.IP)) ∧
    filterByListType ListTypeFilter.GEO lists
      = lists.filter (fun l => decide (l.type = NetListType.GEO)) := by
  have hany : filterByListType ListTypeFilter.ANY lists = lists := by
    unfold filterByListType
    simp [matchesListType]
  have hip : filterByListType ListTypeFilter.IP lists
      = lists.filter (fun l => decide (l.type = NetListType.IP)) := by
    unfold filterByListType
    congr 1
    funext l
    cases h : l.type <;> simp [matchesListType]
  have hgeo : filterByListType ListTypeFilter.GEO lists
      = lists.filter (fun l => decide (l.type = NetListType.GEO)) := by
    unfold filterByListType
    congr 1
    funext l
    cases h : l.type <;> simp [matchesListType]
  have hnot : (fun l : NetworkList => decide (l.type = NetListType.GEO))
      = (fun l => !decide (l.type = NetListType.IP)) := by
    funext l
    cases h : l.type <;> simp
  refine ⟨hany, ?_, ?_, hip, hgeo⟩
  · rw [hany, hip, hgeo]
    ext l
    simp only [List.mem_toFinset, Finset.mem_union, List.mem_filter, decide_eq_true_eq]
    constructor
    · intro hl
      cases h : l.type
      · exact Or.inl ⟨hl, rfl⟩
      · exact Or.inr ⟨hl, rfl⟩
    · rintro (h | h) <;> exact h.1
  · rw [hany, hip, hgeo, hnot]
    exact List.filter_append_perm _ lists

/-- C6: for every collection of network lists the service returns, listing with `ANY` returns
all of them, which is the union of the `IP` listing and the `GEO` listing (as a set, and as a
rearrangement of the two listings put together); listing with `IP` (with `GEO`) returns
exactly the lists of type IP (of type GEO).  The same holds for `search` among the lists that
match the search pattern. -/
theorem C6_listing_by_type (remote : List NetworkList) (matchesPattern : NetworkList → Bool) :
    (cmdlistNetLists ListTypeFilter.ANY remote = remote ∧
      (cmdlistNetLists ListTypeFilter.ANY remote).toFinset
        = (cmdlistNetLists ListTypeFilter.IP remote).toFinset
          ∪ (cmdlistNetLists ListTypeFilter.GEO remote).toFinset ∧
      (cmdlistNetLists ListTypeFilter.IP remote
          ++ cmdlistNetLists ListTypeFilter.GEO remote).Perm
        (cmdlistNetLists ListTypeFilter.ANY remote) ∧
      cmdlistNetLists ListTypeFilter.IP remote
        = remote.filter (fun l => decide (l.type = NetListType.IP)) ∧
      cmdlistNetLists ListTypeFilter.GEO remote
        = remote.filter (fun l => decide (l.type = NetListType.GEO))) ∧
    (cmdSearchNetLists matchesPattern ListTypeFilter.ANY remote = remote.filter matchesPattern ∧
      (cmdSearchNetLists matchesPattern ListTypeFilter.ANY remote).toFinset
        = (cmdSearchNetLists matchesPattern ListTypeFilter.IP remote).toFinset
          ∪ (cmdSearchNetLists matchesPattern ListTypeFilter.GEO remote).toFinset ∧
      (cmdSearchNetLists matchesPattern ListTypeFilter.IP remote
          ++ cmdSearchNetLists matchesPattern ListTypeFilter.GEO remote).Perm
        (cmdSearchNetLists matchesPattern ListTypeFilter.ANY remote) ∧
      cmdSearchNetLists matchesPattern ListTypeFilter.IP remote
        = (remote.filter matchesPattern).filter (fun l => decide (l.type = NetListType.IP)) ∧
      cmdSearchNetLists matchesPattern ListTypeFilter.GEO remote
        = (remote.filter matchesPattern).filter
            (fun l => decide (l.type = NetListType.GEO))) :=
  ⟨filterByListType_spec remote, filterByListType_spec (remote.filter matchesPattern)⟩

/-! ## Theorems: synchronization -/

/-- With both fetches successful, `sync aka` is the synchronization routine on the fetched
elements. -/
theorem cmdSyncNetListID_eq (fetch : String → Except Error (List Element)) (remote : Remote)
    (idSrc idDst : String) (force : Bool) (S D : List Element)
    (hS : fetch idSrc = Except.ok S) (hD : fetch idDst = Except.ok D) :
    cmdSyncNetListID fetch remote idSrc idDst force = syncElements remote force idDst S D := by
  simp [cmdSyncNetListID, hS, hD]

/-- With the file read and the fetch successful, `sync local` is the synchronization routine
on the lines of the file and the fetched elements. -/
theorem cmdsyncNetListWithFile_eq (readLines fetch : String → Except Error (List Element))
    (remote : Remote) (fromFile idDst : String) (force : Bool) (S D : List Element)
    (hS : readLines fromFile = Except.ok S) (hD : fetch idDst = Except.ok D) :
    cmdsyncNetListWithFile readLines fetch remote fromFile idDst force
      = syncElements remote force idDst S D := by
  simp [cmdsyncNetListWithFile, hS, hD]

/-- C7: when the source set and the destination set are equal, `sync aka` and `sync local`
compute empty additions and empty removals, issue no write call at all and report no error,
with or without `force` and whatever the remote service would answer. -/
theorem C7_equal_sets_no_writes (readLines fetch : String → Except Error (List Element))
    (remote : Remote) (idSrc fromFile idDst : String) (force : Bool) (S F D : List Element)
    (hS : fetch idSrc = Except.ok S) (hF : readLines fromFile = Except.ok F)
    (hD : fetch idDst = Except.ok D)
    (hSD : S.toFinset = D.toFinset) (hFD : F.toFinset = D.toFinset) :
    cmdSyncNetListID fetch remote idSrc idDst force
      = { additions := [], removals := [], calls := [], err := none } ∧
    cmdsyncNetListWithFile readLines fetch remote fromFile idDst force
      = { additions := [], removals := [], calls := [], err := none } := by
  have key : ∀ X : List Element, X.toFinset = D.toFinset →
      syncElements remote force idDst X D
        = { additions := [], removals := [], calls := [], err := none } := by
    intro X hX
    have hmem : ∀ x, x ∈ X ↔ x ∈ D := by
      intro x
      rw [← List.mem_toFinset, hX, List.mem_toFinset]
    have ha : additions X D = [] := by
      unfold additions
      rw [List.filter_eq_nil_iff]
      intro x hx
      simpa using (hmem x).mp hx
    have hr : removals X D = [] := by
      unfold removals
      rw [List.filter_eq_nil_iff]
      intro x hx
      simpa using (hmem x).mpr hx
    unfold syncElements
    simp only [ha, hr]
    cases force <;> simp [issue]
  rw [cmdSyncNetListID_eq fetch remote idSrc idDst force S D hS hD,
    cmdsyncNetListWithFile_eq readLines fetch remote fromFile idDst force F D hF hD]
  exact ⟨key S hSD, key F hFD⟩

/-- Witness of C7: destination {10.0.0.2, 10.0.0.3}, and the same set as source, once from a
list that repeats an element and once from a file in another order; forced run, rejecting
service. -/
theorem C7_equal_sets_no_writes_witness :
    (cmdSyncNetListID fetchSample remoteRejecting "LIST_COPY" "LIST_DST" true).calls = [] ∧
    (cmdsyncNetListWithFile readLinesSample fetchSample remoteRejecting "same.txt" "LIST_DST"
      true).calls = [] :=
  have h := C7_equal_sets_no_writes readLinesSample fetchSample remoteRejecting
    "LIST_COPY" "same.txt" "LIST_DST" true ["10.0.0.3", "10.0.0.2", "10.0.0.3"]
    ["10.0.0.3", "10.0.0.2"] ["10.0.0.2", "10.0.0.3"] rfl rfl rfl (by decide) (by decide)
  ⟨congrArg SyncOutcome.calls h.1, congrArg SyncOutcome.calls h.2⟩

end NetlistCli
